import Mathlib

/-!
Verification of the activity-aggregation / terminal progress renderer
implemented in `src/nix/progress-bar.cc`.

The C++ state (`ProgressBar::State`) is embedded shallowly:

* `std::list<ActInfo>` becomes a Lean list of `(NodeId × ActInfo)` pairs,
  where the fresh `NodeId` models the identity of a list node (a stable
  `std::list` iterator points to a node; erasing the node invalidates it,
  which the model renders as a lookup miss on the node id).
* `std::map` becomes an association list with C++ `std::map` semantics
  (`alookup`, insert-or-assign `aset`, insert-if-absent `aemplace`,
  erase-by-key `aerase`).  Only the key/value contents matter to the
  program's observable behaviour (iteration in the source is used for
  commutative sums and for per-key updates only).
* `uint64_t` becomes `ZMod (2 ^ 64)` (written `U64`), so machine addition
  and subtraction are exact group operations modulo `2 ^ 64`.
* Fatal `assert` failures become `none`; operations the source cannot
  abort on are total.
* Each public operation returns the mutated state together with the list
  of strings written to stderr by the synchronous re-render, so claims
  about "a render happened / did not happen" are statements about that
  list.
-/

namespace PB

/-- Modulus of `uint64_t` (2 ^ 64 written as a numeral). -/
def W64 : Nat := 18446744073709551616

/-- The `uint64_t` counters of the source, with wrap-around arithmetic. -/
abbrev U64 := ZMod W64

/-- Caller-supplied activity identifier (`ActivityId`). -/
abbrev ActivityId := Nat

/-- Identity of one `std::list` node holding an `ActInfo`. -/
abbrev NodeId := Nat

/-- Modelled from the spec: the `ActivityType` enumeration of the external
logging framework (its header is not part of this repository).  Only the
constructors the renderer distinguishes are needed; `actUnknown` stands for
every other kind. -/
inductive ActivityType
  | actUnknown
  | actBuilds
  | actCopyPaths
  | actCopyPath
  | actDownload
  | actOptimiseStore
  | actVerifyPaths
  deriving DecidableEq

/-- Modelled from the spec: the `ResultType` enumeration; `resOther` stands
for the unbounded set of ignorable result kinds. -/
inductive ResultType
  | resFileLinked
  | resBuildLogLine
  | resUntrustedPath
  | resCorruptedPath
  | resOther
  deriving DecidableEq

/-- Modelled from the spec: `Logger::Field`, a tagged string-or-integer
payload value. -/
inductive FieldV
  | tString (s : String)
  | tInt (i : U64)
  deriving DecidableEq

/-- Source: `ProgressBar::ActInfo`. -/
structure ActInfo where
  s : String
  s2 : String
  type : ActivityType
  done : U64
  expected : U64
  running : U64
  failed : U64
  expectedByType : List (ActivityType × U64)
  deriving DecidableEq

/-- A default-constructed `ActInfo` (used to read through a dangling node
id, which is undefined behaviour in the C++ source). -/
def defaultActInfo : ActInfo := ⟨"", "", ActivityType.actUnknown, 0, 0, 0, 0, []⟩

/-- Source: `ProgressBar::ActivitiesByType`. -/
structure ActivitiesByType where
  its : List (ActivityId × NodeId)
  done : U64
  expected : U64
  failed : U64
  deriving DecidableEq

/-- A value-initialized `ActivitiesByType`, as created by `std::map`
`operator[]`. -/
def defaultABT : ActivitiesByType := ⟨[], 0, 0, 0⟩

/-- Source: `ProgressBar::State`, plus the node-id allocator for list nodes. -/
structure State where
  nextNode : NodeId
  activities : List (NodeId × ActInfo)
  its : List (ActivityId × NodeId)
  activitiesByType : List (ActivityType × ActivitiesByType)
  filesLinked : U64
  bytesLinked : U64
  corruptedPaths : U64
  untrustedPaths : U64
  deriving DecidableEq

/-- The state of a freshly constructed `ProgressBar`. -/
def initState : State := ⟨0, [], [], [], 0, 0, 0, 0⟩

/-! ### Association-list primitives (`std::map` semantics) -/

/-- Source: `std::map::find` (first matching key). -/
def alookup {α β : Type} [DecidableEq α] : List (α × β) → α → Option β
  | [], _ => none
  | (k, v) :: l, a => if k = a then some v else alookup l a

/-- Source: `std::map` insert-or-assign: update the entry if present, append it
otherwise. -/
def aset {α β : Type} [DecidableEq α] : List (α × β) → α → β → List (α × β)
  | [], a, b => [(a, b)]
  | (k, v) :: l, a, b => if k = a then (k, b) :: l else (k, v) :: aset l a b

/-- Source: `std::map::emplace`: insert only when the key is absent (a present key
is silently left unchanged). -/
def aemplace {α β : Type} [DecidableEq α] (l : List (α × β)) (a : α) (b : β) : List (α × β) :=
  if (alookup l a).isSome then l else l ++ [(a, b)]

/-- Source: `std::map::erase` by key. -/
def aerase {α β : Type} [DecidableEq α] : List (α × β) → α → List (α × β)
  | [], _ => []
  | (k, v) :: l, a => if k = a then l else (k, v) :: aerase l a

/-! ### State accessors -/

/-- Dereference a list-node id (`*it` on a stored iterator).  A dangling id
yields the default `ActInfo`; in the C++ source that dereference is
undefined behaviour. -/
def deref (st : State) (nid : NodeId) : ActInfo :=
  (alookup st.activities nid).getD defaultActInfo

/-- Source: `state.activitiesByType[type]` read as a pure lookup (a missing key
behaves as the value-initialized entry that `operator[]` would create). -/
def getABT (st : State) (t : ActivityType) : ActivitiesByType :=
  (alookup st.activitiesByType t).getD defaultABT

/-- Source: `state.activitiesByType[type]` mutated through a reference:
`operator[]` creates the entry if needed, then the field update is applied. -/
def modifyABT (st : State) (t : ActivityType) (f : ActivitiesByType → ActivitiesByType) : State :=
  { st with activitiesByType := aset st.activitiesByType t (f (getABT st t)) }

/-! ### Formatting helpers (`fmt`, ANSI color macros from `util.hh`) -/

/-- Modelled from the spec: `ANSI_NORMAL` escape sequence of `util.hh`. -/
def ANSI_NORMAL : String := "\x1B[0m"

/-- Modelled from the spec: `ANSI_RED` escape sequence of `util.hh`. -/
def ANSI_RED : String := "\x1B[31;1m"

/-- Modelled from the spec: `ANSI_GREEN` escape sequence of `util.hh`. -/
def ANSI_GREEN : String := "\x1B[32;1m"

/-- Modelled from the spec: `ANSI_BLUE` escape sequence of `util.hh`. -/
def ANSI_BLUE : String := "\x1B[34;1m"

/-- Rendering of one counter under `numberFmt = "%d"`, `unit = 1`
(the value passes through a `double`, which is exact below `2 ^ 53`;
that lossiness is display-only and not relied on by any claim). -/
def showD (n : U64) : String := toString n.val

/-- Rendering of one counter under `numberFmt = "%.1f"`, `unit = MiB`:
`n / 2 ^ 20` with one decimal digit (`printf` rounding through `double`
approximated by half-up rounding of tenths; display-only). -/
def showMiB (n : U64) : String :=
  let t := (n.val * 10 + 524288) / 1048576
  toString (t / 10) ++ "." ++ toString (t % 10)

/-- Rendering of the failed counter under `unit = MiB` (the source feeds
`failed / unit`, a `double`, to a `"%d"` conversion; approximated by the
truncated quotient; display-only). -/
def showMiBD (n : U64) : String := toString (n.val / 1048576)

/-- The per-category number formatting configuration (`numberFmt` together
with `unit`): one renderer for the three progress counters and one for the
failed suffix. -/
structure NumFmt where
  sn : U64 → String
  snF : U64 → String

/-- Source: `numberFmt = "%d"`, `unit = 1`. -/
def fmtInt : NumFmt := ⟨showD, showD⟩

/-- Source: `numberFmt = "%.1f"`, `unit = MiB`. -/
def fmtMiB : NumFmt := ⟨showMiB, showMiBD⟩

/-! ### The Type Aggregator (`getStatus::renderActivity`) -/

/-- The four counters computed by `renderActivity`: the single loop over
`act.its` accumulating `done`, `expected`, `running`, `failed`, starting
from `(act.done, act.done, 0, act.failed)`, followed by
`expected = std::max(expected, act.expected)`. -/
def renderCounts (st : State) (t : ActivityType) : U64 × U64 × U64 × U64 :=
  let act := getABT st t
  let c := act.its.foldl
    (fun acc j =>
      let info := deref st j.2
      (acc.1 + info.done, acc.2.1 + info.expected, acc.2.2.1 + info.running,
        acc.2.2.2 + info.failed))
    (act.done, act.done, 0, act.failed)
  (c.1, if c.2.1.val < act.expected.val then act.expected else c.2.1, c.2.2.1, c.2.2.2)

/-- Source: `std::max` on `uint64_t` values. -/
def umax (a b : U64) : U64 := if a.val < b.val then b else a

/-- The formatting half of `getStatus::renderActivity`, applied to the four
computed counters.  `itemSuffix` is the text after the `"%s"` of `itemFmt`. -/
def renderFrag (done expected running failed : U64) (itemSuffix : String) (nf : NumFmt) :
    String :=
  if running ≠ 0 ∨ done ≠ 0 ∨ expected ≠ 0 ∨ failed ≠ 0 then
    let s :=
      if running ≠ 0 then
        ANSI_BLUE ++ nf.sn running ++ ANSI_NORMAL ++ "/" ++ ANSI_GREEN ++ nf.sn done ++
          ANSI_NORMAL ++ "/" ++ nf.sn expected
      else if expected ≠ done then
        ANSI_GREEN ++ nf.sn done ++ ANSI_NORMAL ++ "/" ++ nf.sn expected
      else if done ≠ 0 then ANSI_GREEN ++ nf.sn done ++ ANSI_NORMAL
      else nf.sn done
    let s := s ++ itemSuffix
    if failed ≠ 0 then
      s ++ " (" ++ ANSI_RED ++ nf.snF failed ++ " failed" ++ ANSI_NORMAL ++ ")"
    else s
  else ""

/-- Source: `getStatus::renderActivity`: the formatted fragment for one category. -/
def renderActivity (st : State) (t : ActivityType) (itemSuffix : String) (nf : NumFmt) :
    String :=
  let c := renderCounts st t
  renderFrag c.1 c.2.1 c.2.2.1 c.2.2.2 itemSuffix nf

/-- Source: `getStatus::showActivity`'s effect on the accumulator `res`: append a
non-empty fragment, separated by `", "` when `res` is non-empty. -/
def addClause (res s : String) : String :=
  if s = "" then res else (if res = "" then "" else res ++ ", ") ++ s

/-- Source: `ProgressBar::getStatus`: the bracketed status summary. -/
def getStatus (st : State) : String :=
  let res0 := ""
  let res1 := addClause res0 (renderActivity st ActivityType.actBuilds (" built") fmtInt)
  let s1 := renderActivity st ActivityType.actCopyPaths (" copied") fmtInt
  let s2 := renderActivity st ActivityType.actCopyPath (" MiB") fmtMiB
  let res2 :=
    if s1 = "" ∧ s2 = "" then res1
    else
      (if res1 = "" then "" else res1 ++ ", ") ++
        ((if s1 = "" then "0 copied" else s1) ++
          (if s2 = "" then "" else " (" ++ s2 ++ ")"))
  let res3 := addClause res2 (renderActivity st ActivityType.actDownload (" MiB DL") fmtMiB)
  let so := renderActivity st ActivityType.actOptimiseStore (" paths optimised") fmtInt
  let res4 :=
    if so = "" then res3
    else
      addClause res3
        (so ++ ", " ++ showMiB st.bytesLinked ++ " MiB / " ++ showD st.filesLinked ++
          " inodes freed")
  let res5 := addClause res4 (renderActivity st ActivityType.actVerifyPaths (" paths verified") fmtInt)
  let res6 :=
    if st.corruptedPaths ≠ 0 then
      addClause res5 (ANSI_RED ++ showD st.corruptedPaths ++ " corrupted" ++ ANSI_NORMAL)
    else res5
  let res7 :=
    if st.untrustedPaths ≠ 0 then
      addClause res6 (ANSI_RED ++ showD st.untrustedPaths ++ " untrusted" ++ ANSI_NORMAL)
    else res6
  res7

/-! ### The Status Renderer (`ProgressBar::update`) -/

/-- The untruncated line `update` composes: carriage return, bracketed
status, trailing label of the last activity (scanning the ordering list
from the tail) and the erase-to-end-of-line sequence. -/
def lineOf (st : State) : String :=
  let status := getStatus st
  let line := "\r" ++ (if status = "" then "" else "[" ++ status ++ "]")
  let line :=
    if st.activities = [] then line
    else
      let line := if status = "" then line else line ++ " "
      match st.activities.reverse.find? (fun q => !(q.2.s == "" && q.2.s2 == "")) with
      | none => line
      | some q =>
          line ++ q.2.s ++ (if q.2.s2 = "" then "" else (if q.2.s = "" then "" else ": ") ++ q.2.s2)
  line ++ "\x1B[K"

/-- Source: `std::string(line, 0, count)`. -/
def strTrunc (s : String) (count : Nat) : String := String.mk (s.data.take count)

/-- The string `update` actually writes: the composed line truncated to
`(size_t)(width - 1)` characters.  For `width = 0` the `int` value `-1`
converts to `size_t` as `2 ^ 64 - 1` (the source never clamps), which the
addition modulo `W64` reproduces for every `width ≤ 65535` (`ws_col` is a
16-bit field). -/
def renderLine (st : State) (width : Nat) : String :=
  strTrunc (lineOf st) ((width + (W64 - 1)) % W64)

/-! ### The Activity Registry (public operations)

Each operation returns the new state and the list of strings written to
stderr; operations that can hit a fatal `assert` return `none` there. -/

/-- Source: `ProgressBar::startActivity`. -/
def startActivity (st : State) (width : Nat) (act : ActivityId) (t : ActivityType)
    (s : String) : State × List String :=
  let nid := st.nextNode
  let st1 : State :=
    { st with
      nextNode := nid + 1
      activities := st.activities ++ [(nid, ⟨s, "", t, 0, 0, 0, 0, []⟩)]
      its := aemplace st.its act nid }
  let st2 := modifyABT st1 t (fun a => { a with its := aemplace a.its act nid })
  (st2, [renderLine st2 width])

/-- Source: `ProgressBar::stopActivity`.  A lookup miss is silently ignored (but
still re-renders); a hit folds `done`/`failed` into the category baseline,
subtracts the cross-category expectation contributions, and removes the
activity from the per-category lookup, the ordering list and the global
lookup, in source order. -/
def stopActivity (st : State) (width : Nat) (act : ActivityId) : State × List String :=
  match alookup st.its act with
  | none => (st, [renderLine st width])
  | some nid =>
      let info := deref st nid
      let st1 := modifyABT st info.type
        (fun a => { a with done := a.done + info.done, failed := a.failed + info.failed })
      let st2 := info.expectedByType.foldl
        (fun s j => modifyABT s j.1 (fun a => { a with expected := a.expected - j.2 })) st1
      let st3 := modifyABT st2 info.type (fun a => { a with its := aerase a.its act })
      let st4 : State :=
        { st3 with activities := aerase st3.activities nid, its := aerase st3.its act }
      (st4, [renderLine st4 width])

/-- Source: `ProgressBar::progress`: overwrite the four counters of a live
activity; a lookup miss is a fatal `assert`. -/
def progress (st : State) (width : Nat) (act : ActivityId)
    (done expected running failed : U64) : Option (State × List String) :=
  match alookup st.its act with
  | none => none
  | some nid =>
      let st1 : State :=
        { st with
          activities := aset st.activities nid
            { deref st nid with
              done := done, expected := expected, running := running, failed := failed } }
      some (st1, [renderLine st1 width])

/-- Source: `ProgressBar::setExpected`: replace this activity's declared
expectation for category `t`, adjusting the aggregate by the signed delta;
a lookup miss is a fatal `assert`. -/
def setExpected (st : State) (width : Nat) (act : ActivityId) (t : ActivityType)
    (expected : U64) : Option (State × List String) :=
  match alookup st.its act with
  | none => none
  | some nid =>
      let info := deref st nid
      let jOld := (alookup info.expectedByType t).getD 0
      let st1 := modifyABT st t (fun a => { a with expected := a.expected - jOld })
      let info1 := { info with expectedByType := aset info.expectedByType t expected }
      let st2 : State := { st1 with activities := aset st1.activities nid info1 }
      let st3 := modifyABT st2 t (fun a => { a with expected := a.expected + expected })
      (st3, [renderLine st3 width])

/-- Modelled from the spec: `trim` of `util.hh` strips the surrounding
whitespace characters `" \n\r\t"`. -/
def isSpaceChar (c : Char) : Bool :=
  c = ' ' || c = '\n' || c = '\r' || c = '\t'

/-- Modelled from the spec: `trim` of `util.hh`. -/
def trimStr (s : String) : String :=
  String.mk (((s.data.dropWhile isSpaceChar).reverse.dropWhile isSpaceChar).reverse)

/-- Source: `getS`: string field accessor; wrong index or tag is a fatal `assert`. -/
def getS (fields : List FieldV) (n : Nat) : Option String :=
  match fields.get? n with
  | some (FieldV.tString s) => some s
  | _ => none

/-- Source: `getI`: integer field accessor; wrong index or tag is a fatal `assert`. -/
def getI (fields : List FieldV) (n : Nat) : Option U64 :=
  match fields.get? n with
  | some (FieldV.tInt i) => some i
  | _ => none

/-- Source: `ProgressBar::result`: dispatch on the result kind.  The build-log-line
branch copies the activity record out of the ordering list, erases the old
node, appends the updated record as a fresh tail node and repoints the
global lookup — the per-category lookup is left untouched (it keeps the
erased node's id). -/
def result (st : State) (width : Nat) (act : ActivityId) (t : ResultType)
    (fields : List FieldV) : Option (State × List String) :=
  if t = ResultType.resFileLinked then
    match getI fields 0 with
    | none => none
    | some n =>
        let st1 : State :=
          { st with filesLinked := st.filesLinked + 1, bytesLinked := st.bytesLinked + n }
        some (st1, [renderLine st1 width])
  else if t = ResultType.resBuildLogLine then
    match getS fields 0 with
    | none => none
    | some s0 =>
        let s2 := trimStr s0
        if s2 = "" then some (st, [])
        else
          match alookup st.its act with
          | none => none
          | some nid =>
              let info := { deref st nid with s2 := s2 }
              let nid2 := st.nextNode
              let st1 : State :=
                { st with
                  nextNode := nid2 + 1
                  activities := aerase st.activities nid ++ [(nid2, info)]
                  its := aset st.its act nid2 }
              some (st1, [renderLine st1 width])
  else if t = ResultType.resUntrustedPath then
    let st1 : State := { st with untrustedPaths := st.untrustedPaths + 1 }
    some (st1, [renderLine st1 width])
  else if t = ResultType.resCorruptedPath then
    let st1 : State := { st with corruptedPaths := st.corruptedPaths + 1 }
    some (st1, [renderLine st1 width])
  else some (st, [])

end PB

namespace PB

/-! ### Association-list lemmas -/

theorem alookup_aset_self {α β : Type} [DecidableEq α] (l : List (α × β)) (k : α) (v : β) :
    alookup (aset l k v) k = some v := by
  induction l with
  | nil => simp [aset, alookup]
  | cons p l ih =>
      obtain ⟨a, b⟩ := p
      by_cases h : a = k
      · subst h; simp [aset, alookup]
      · simp [aset, alookup, h, ih]

theorem alookup_aset_ne {α β : Type} [DecidableEq α] (l : List (α × β)) (k k' : α) (v : β)
    (h : k' ≠ k) : alookup (aset l k v) k' = alookup l k' := by
  have h2 : ¬ k = k' := fun hh => h hh.symm
  induction l with
  | nil => simp [aset, alookup, h2]
  | cons p l ih =>
      obtain ⟨a, b⟩ := p
      by_cases ha : a = k
      · subst ha
        simp [aset, alookup, h2]
      · simp [aset, alookup, ha, ih]

theorem aset_aset {α β : Type} [DecidableEq α] (l : List (α × β)) (k : α) (v w : β) :
    aset (aset l k v) k w = aset l k w := by
  induction l with
  | nil => simp [aset]
  | cons p l ih =>
      obtain ⟨a, b⟩ := p
      by_cases h : a = k
      · subst h; simp [aset]
      · simp [aset, h, ih]

theorem alookup_aerase_ne {α β : Type} [DecidableEq α] (l : List (α × β)) (k k' : α)
    (h : k' ≠ k) : alookup (aerase l k) k' = alookup l k' := by
  have h2 : ¬ k = k' := fun hh => h hh.symm
  induction l with
  | nil => simp [aerase]
  | cons p l ih =>
      obtain ⟨a, b⟩ := p
      by_cases ha : a = k
      · subst ha
        simp [aerase, alookup, h2]
      · simp [aerase, alookup, ha, ih]

theorem alookup_append_left {α β : Type} [DecidableEq α] (l l' : List (α × β)) (k : α) (v : β)
    (h : alookup l k = some v) : alookup (l ++ l') k = some v := by
  induction l with
  | nil => simp [alookup] at h
  | cons p l ih =>
      obtain ⟨a, b⟩ := p
      by_cases ha : a = k
      · subst ha; simp_all [alookup]
      · simp_all [alookup, ha]

theorem alookup_append_right {α β : Type} [DecidableEq α] (l l' : List (α × β)) (k : α)
    (h : alookup l k = none) : alookup (l ++ l') k = alookup l' k := by
  induction l with
  | nil => simp [alookup]
  | cons p l ih =>
      obtain ⟨a, b⟩ := p
      by_cases ha : a = k
      · subst ha; simp [alookup] at h
      · simp_all [alookup, ha]

theorem alookup_aemplace {α β : Type} [DecidableEq α] (l : List (α × β)) (k : α) (v : β) :
    alookup (aemplace l k v) k = some ((alookup l k).getD v) := by
  unfold aemplace
  cases h : alookup l k with
  | some w => simp [h]
  | none =>
      simp only [h, Option.isSome_none, Bool.false_eq_true, if_false, Option.getD_none]
      rw [alookup_append_right l _ k h]
      simp [alookup]

theorem alookup_aemplace_ne {α β : Type} [DecidableEq α] (l : List (α × β)) (k k' : α) (v : β)
    (h : k' ≠ k) : alookup (aemplace l k v) k' = alookup l k' := by
  unfold aemplace
  cases hh : (alookup l k).isSome with
  | true => simp
  | false =>
      simp only [Bool.false_eq_true, if_false]
      cases h2 : alookup l k' with
      | some w => rw [alookup_append_left l _ k' w h2]
      | none =>
          have h3 : ¬ k = k' := fun hh => h hh.symm
          rw [alookup_append_right l _ k' h2]
          simp [alookup, h3]

theorem alookup_mem {α β : Type} [DecidableEq α] (l : List (α × β)) (k : α) (v : β)
    (h : alookup l k = some v) : (k, v) ∈ l := by
  induction l with
  | nil => simp [alookup] at h
  | cons p l ih =>
      obtain ⟨a, b⟩ := p
      by_cases ha : a = k
      · subst ha
        simp [alookup] at h
        simp [h]
      · simp only [alookup, ha, if_false] at h
        exact List.mem_cons_of_mem _ (ih h)

theorem alookup_eq_none_of_not_mem_keys {α β : Type} [DecidableEq α] (l : List (α × β)) (k : α)
    (h : k ∉ l.map Prod.fst) : alookup l k = none := by
  induction l with
  | nil => rfl
  | cons p l ih =>
      obtain ⟨a, b⟩ := p
      simp only [List.map_cons, List.mem_cons, not_or] at h
      have h3 : ¬ a = k := fun hh => h.1 hh.symm
      simp [alookup, h3, ih h.2]

theorem aerase_sublist {α β : Type} [DecidableEq α] (l : List (α × β)) (k : α) :
    (aerase l k).Sublist l := by
  induction l with
  | nil => simp [aerase]
  | cons p l ih =>
      obtain ⟨a, b⟩ := p
      by_cases ha : a = k
      · simp only [aerase, if_pos ha]
        exact List.sublist_cons_self _ _
      · simp only [aerase, if_neg ha]
        exact ih.cons₂ (a, b)

theorem perm_cons_aerase {α β : Type} [DecidableEq α] (l : List (α × β)) (k : α) (v : β)
    (h : alookup l k = some v) : l.Perm ((k, v) :: aerase l k) := by
  induction l with
  | nil => simp [alookup] at h
  | cons p l ih =>
      obtain ⟨a, b⟩ := p
      by_cases ha : a = k
      · subst ha
        rw [alookup, if_pos rfl] at h
        obtain rfl : b = v := Option.some.inj h
        rw [aerase, if_pos rfl]
      · rw [alookup, if_neg ha] at h
        have hstep := (ih h).cons (a, b)
        rw [aerase, if_neg ha]
        exact hstep.trans (List.Perm.swap _ _ _)

theorem mem_aerase_of_keys_nodup {α β : Type} [DecidableEq α] (l : List (α × β)) (k : α)
    (q : α × β) (hnd : (l.map Prod.fst).Nodup) (hq : q ∈ aerase l k) : q.1 ≠ k ∧ q ∈ l := by
  induction l with
  | nil => simp [aerase] at hq
  | cons p l ih =>
      obtain ⟨a, b⟩ := p
      simp only [List.map_cons, List.nodup_cons] at hnd
      by_cases ha : a = k
      · subst ha
        simp only [aerase, if_pos rfl] at hq
        refine ⟨?_, List.mem_cons_of_mem _ hq⟩
        intro hk
        exact hnd.1 (hk ▸ (List.mem_map_of_mem Prod.fst hq))
      · simp only [aerase, ha, if_false, List.mem_cons] at hq
        rcases hq with hq | hq
        · subst hq; exact ⟨ha, List.mem_cons_self _ _⟩
        · obtain ⟨h1, h2⟩ := ih hnd.2 hq
          exact ⟨h1, List.mem_cons_of_mem _ h2⟩

end PB

namespace PB

/-! ### String lemmas -/

theorem strData_append (a b : String) : (a ++ b).data = a.data ++ b.data := rfl

theorem str_eq_empty_iff (s : String) : s = "" ↔ s.data = [] := by
  constructor
  · intro h; rw [h]
  · intro h; exact String.ext h

theorem append_ne_empty_left (a b : String) (h : a ≠ "") : a ++ b ≠ "" := by
  intro hc
  rw [str_eq_empty_iff, strData_append, List.append_eq_nil] at hc
  exact h ((str_eq_empty_iff a).mpr hc.1)

theorem append_ne_empty_right (a b : String) (h : b ≠ "") : a ++ b ≠ "" := by
  intro hc
  rw [str_eq_empty_iff, strData_append, List.append_eq_nil] at hc
  exact h ((str_eq_empty_iff b).mpr hc.2)

theorem ANSI_BLUE_ne_empty : ANSI_BLUE ≠ "" := by decide
theorem ANSI_GREEN_ne_empty : ANSI_GREEN ≠ "" := by decide

/-! ### State accessor lemmas -/

@[simp] theorem modifyABT_activities (st : State) (t : ActivityType)
    (f : ActivitiesByType → ActivitiesByType) : (modifyABT st t f).activities = st.activities :=
  rfl

@[simp] theorem modifyABT_its (st : State) (t : ActivityType)
    (f : ActivitiesByType → ActivitiesByType) : (modifyABT st t f).its = st.its := rfl

@[simp] theorem modifyABT_nextNode (st : State) (t : ActivityType)
    (f : ActivitiesByType → ActivitiesByType) : (modifyABT st t f).nextNode = st.nextNode := rfl

theorem getABT_modifyABT_self (st : State) (t : ActivityType)
    (f : ActivitiesByType → ActivitiesByType) :
    getABT (modifyABT st t f) t = f (getABT st t) := by
  simp [getABT, modifyABT, alookup_aset_self]

theorem getABT_modifyABT_ne (st : State) (t t' : ActivityType)
    (f : ActivitiesByType → ActivitiesByType) (h : t' ≠ t) :
    getABT (modifyABT st t f) t' = getABT st t' := by
  simp [getABT, modifyABT, alookup_aset_ne _ _ _ _ h]

theorem deref_modifyABT (st : State) (t : ActivityType)
    (f : ActivitiesByType → ActivitiesByType) (nid : NodeId) :
    deref (modifyABT st t f) nid = deref st nid := rfl

theorem modifyABT_modifyABT (st : State) (t : ActivityType)
    (f g : ActivitiesByType → ActivitiesByType) :
    modifyABT (modifyABT st t f) t g = modifyABT st t (fun a => g (f a)) := by
  have h1 : getABT (modifyABT st t f) t = f (getABT st t) := getABT_modifyABT_self st t f
  show ({ st with
      activitiesByType :=
        aset (aset st.activitiesByType t (f (getABT st t))) t
          (g (getABT (modifyABT st t f) t)) } : State) =
    { st with activitiesByType := aset st.activitiesByType t (g (f (getABT st t))) }
  rw [h1, aset_aset]

/-! ### Sums over the live-activity lookup -/

/-- Sum of one `ActInfo` counter over a category's live activities (the
loop of `renderActivity` split per component). -/
def liveSum (st : State) (t : ActivityType) (f : ActInfo → U64) : U64 :=
  (((getABT st t).its).map (fun q => f (deref st q.2))).sum

theorem foldl_quad (l : List (ActivityId × NodeId)) (g1 g2 g3 g4 : ActivityId × NodeId → U64)
    (a b c d : U64) :
    l.foldl
        (fun acc j =>
          (acc.1 + g1 j, acc.2.1 + g2 j, acc.2.2.1 + g3 j, acc.2.2.2 + g4 j)) (a, b, c, d) =
      (a + (l.map g1).sum, b + (l.map g2).sum, c + (l.map g3).sum, d + (l.map g4).sum) := by
  induction l generalizing a b c d with
  | nil => simp
  | cons x l ih =>
      simp only [List.foldl_cons, List.map_cons, List.sum_cons]
      rw [ih]
      simp [add_assoc]

theorem renderCounts_eq (st : State) (t : ActivityType) :
    renderCounts st t =
      ((getABT st t).done + liveSum st t ActInfo.done,
        umax ((getABT st t).done + liveSum st t ActInfo.expected) (getABT st t).expected,
        liveSum st t ActInfo.running,
        (getABT st t).failed + liveSum st t ActInfo.failed) := by
  unfold renderCounts umax liveSum
  simp only []
  rw [foldl_quad ((getABT st t).its)
    (fun j => (deref st j.2).done) (fun j => (deref st j.2).expected)
    (fun j => (deref st j.2).running) (fun j => (deref st j.2).failed)]
  simp [zero_add]

theorem renderFrag_empty_iff (d e r f : U64) (itemSuffix : String) (nf : NumFmt) :
    renderFrag d e r f itemSuffix nf = "" ↔ r = 0 ∧ d = 0 ∧ e = 0 ∧ f = 0 := by
  by_cases hc : r ≠ 0 ∨ d ≠ 0 ∨ e ≠ 0 ∨ f ≠ 0
  · rw [renderFrag, if_pos hc]
    constructor
    swap
    · intro hz
      rcases hc with h | h | h | h <;> [exact absurd hz.1 h; exact absurd hz.2.1 h;
        exact absurd hz.2.2.1 h; exact absurd hz.2.2.2 h]
    · intro hempty
      exfalso
      by_cases hf : f ≠ 0
      · rw [if_pos hf] at hempty
        exact append_ne_empty_right _ _ (by decide) hempty
      · rw [if_neg hf] at hempty
        push_neg at hf
        by_cases hr : r ≠ 0
        · rw [if_pos hr] at hempty
          exact append_ne_empty_left _ _
            (append_ne_empty_left _ _ (append_ne_empty_left _ _ (append_ne_empty_left _ _
              (append_ne_empty_left _ _ (append_ne_empty_left _ _ (append_ne_empty_left _ _
                (append_ne_empty_left _ _ ANSI_BLUE_ne_empty))))))) hempty
        · rw [if_neg hr] at hempty
          by_cases he : e ≠ d
          · rw [if_pos he] at hempty
            exact append_ne_empty_left _ _
              (append_ne_empty_left _ _ (append_ne_empty_left _ _ (append_ne_empty_left _ _
                ANSI_GREEN_ne_empty))) hempty
          · rw [if_neg he] at hempty
            by_cases hd : d ≠ 0
            · rw [if_pos hd] at hempty
              exact append_ne_empty_left _ _
                (append_ne_empty_left _ _ (append_ne_empty_left _ _ ANSI_GREEN_ne_empty)) hempty
            · push_neg at hr he hd
              rcases hc with h | h | h | h
              · exact h hr
              · exact h hd
              · exact h (he.trans hd)
              · exact h hf
  · rw [renderFrag, if_neg hc]
    push_neg at hc
    simp [hc.1, hc.2.1, hc.2.2.1, hc.2.2.2]

end PB

namespace PB

/-! ### Claim C1 -/

/-- Follows the spec's words for claim C1 (not the source): the four
metric values with `expected = max(aggregate.expected, Σ live.expected)`,
i.e. without the baseline `done` term the source folds into the
expected sum. -/
def specRenderCounts (st : State) (t : ActivityType) : U64 × U64 × U64 × U64 :=
  ((getABT st t).done + liveSum st t ActInfo.done,
    umax (liveSum st t ActInfo.expected) (getABT st t).expected,
    liveSum st t ActInfo.running,
    (getABT st t).failed + liveSum st t ActInfo.failed)

/-- A concrete run refuting the spec's `expected` formula: one build
activity reaches `done = 1` and is stopped, leaving baseline
`done = 1`, no live activities and aggregate `expected = 0`. -/
def c1Start : State := (startActivity initState 80 1 ActivityType.actBuilds ("b")).1

/-- Second step of the C1 run: `progress(1, 1, 0, 0, 0)`. -/
def c1Prog : State :=
  match progress c1Start 80 1 1 0 0 0 with
  | some p => p.1
  | none => c1Start

/-- Final state of the C1 run: the build activity stopped. -/
def c1State : State := (stopActivity c1Prog 80 1).1

/-- Claim C1, as stated, is false: on `c1State` the build metric computes
`expected = 1` (the baseline `done` seeds the expected sum in the source),
while the spec's formula `max(aggregate.expected, Σ live.expected)`
yields `0`. -/
theorem C1_counterexample :
    renderCounts c1State ActivityType.actBuilds ≠
      specRenderCounts c1State ActivityType.actBuilds := by
  decide

/-- Claim C1 (amended): for every category, the rendered metric computes
`done = baseline.done + Σ live.done`, `failed = baseline.failed +
Σ live.failed`, `running = Σ live.running` and
`expected = max(aggregate.expected, baseline.done + Σ live.expected)`
(the baseline `done` seeds the expected sum); the fragment is the empty
string exactly when all four computed values are zero. -/
theorem C1_theorem (st : State) (t : ActivityType) (itemSuffix : String) (nf : NumFmt) :
    renderCounts st t =
      ((getABT st t).done + liveSum st t ActInfo.done,
        umax ((getABT st t).done + liveSum st t ActInfo.expected) (getABT st t).expected,
        liveSum st t ActInfo.running,
        (getABT st t).failed + liveSum st t ActInfo.failed) ∧
    (renderActivity st t itemSuffix nf = "" ↔ renderCounts st t = (0, 0, 0, 0)) := by
  refine ⟨renderCounts_eq st t, ?_⟩
  rcases hcq : renderCounts st t with ⟨d, e, r, f⟩
  simp only [renderActivity, hcq]
  rw [renderFrag_empty_iff]
  simp only [Prod.mk.injEq]
  constructor
  · rintro ⟨h1, h2, h3, h4⟩
    exact ⟨h2, h3, h1, h4⟩
  · rintro ⟨h1, h2, h3, h4⟩
    exact ⟨h3, h1, h2, h4⟩

/-! ### Claim C2 -/

/-- State after `startActivity(1, actBuilds, "foo")`. -/
def c2Mid : State := (startActivity initState 80 1 ActivityType.actBuilds ("foo")).1

/-- State after the build-log-line result moved the activity to the tail
of the ordering list. -/
def c2State : State :=
  match result c2Mid 80 1 ResultType.resBuildLogLine [FieldV.tString ("x")] with
  | some p => p.1
  | none => c2Mid

/-- Claim C2 fails on the code: after `start(1, actBuilds, "foo")` followed
by a build-log-line result, the per-category lookup still maps id 1 to
list node 0, but the ordering list only contains the re-appended node 1
(the global lookup was repointed, the per-category one was not) — a
dangling-iterator use-after-free in the C++ source. -/
theorem C2_theorem :
    (getABT c2State ActivityType.actBuilds).its = [(1, 0)] ∧
    c2State.activities.map Prod.fst = [1] ∧
    alookup c2State.its 1 = some 1 ∧
    ¬ (∀ p ∈ c2State.activitiesByType, ∀ q ∈ p.2.its,
        (alookup c2State.activities q.2).isSome = true) := by
  decide

/-! ### Claim C3 -/

/-- Starting the same id twice: the second call is not rejected. -/
def c3Dup : State :=
  (startActivity (startActivity initState 80 1 ActivityType.actBuilds ("a")).1
    80 1 ActivityType.actBuilds ("b")).1

/-- Claim C3, as stated, is false: a duplicate `start` neither fails
fatally nor leaves the state unchanged — after starting id 1 twice the
ordering list holds two entries while the lookup still holds the single
original mapping (the `std::map::emplace` silently ignored the duplicate
key, but the list insertion had already happened). -/
theorem C3_counterexample : c3Dup.activities.length = 2 ∧ c3Dup.its = [(1, 0)] := by
  decide

/-- Claim C3 (amended): `start` never fails.  It always appends a new
activity with empty secondary label and all four counters zero at the tail
of the ordering list; for a fresh id both lookups gain a mapping to the new
tail entry, while for an already-present id both lookups keep their
existing mapping (leaving the new list entry orphaned). -/
theorem C3_theorem (st : State) (w : Nat) (act : ActivityId) (t : ActivityType) (s : String) :
    (startActivity st w act t s).1.activities
        = st.activities ++ [(st.nextNode, ⟨s, "", t, 0, 0, 0, 0, []⟩)] ∧
    alookup (startActivity st w act t s).1.its act
        = some ((alookup st.its act).getD st.nextNode) ∧
    alookup (getABT (startActivity st w act t s).1 t).its act
        = some ((alookup (getABT st t).its act).getD st.nextNode) ∧
    (startActivity st w act t s).2 = [renderLine (startActivity st w act t s).1 w] := by
  refine ⟨rfl, ?_, ?_, rfl⟩
  · exact alookup_aemplace st.its act st.nextNode
  · have e1 : getABT (startActivity st w act t s).1 t
        = { getABT st t with its := aemplace (getABT st t).its act st.nextNode } :=
      getABT_modifyABT_self _ t _
    rw [e1]
    exact alookup_aemplace (getABT st t).its act st.nextNode

end PB

namespace PB

/-! ### Claims C6, C9, C10 -/

/-- Claim C10: stopping an id that is not in the registry leaves the whole
stored state unchanged, yet still performs the redraw (the same single
stderr write a successful stop would make). -/
theorem C10_theorem (st : State) (w : Nat) (act : ActivityId)
    (h : alookup st.its act = none) :
    stopActivity st w act = (st, [renderLine st w]) := by
  simp [stopActivity, h]

/-- Witness for C10 at a concrete input: id 5 is unknown in the initial
state and `stopActivity` is the identity on the state while still writing
one render. -/
theorem C10_witness :
    alookup initState.its 5 = none ∧
    stopActivity initState 80 5 = (initState, [renderLine initState 80]) :=
  ⟨by decide, C10_theorem initState 80 5 (by decide)⟩

/-- Claim C6: `progress` on an unknown id is a fatal assert (`none`),
while `stopActivity` on the same unknown id is a silent no-op that
still renders; on a live id `progress` overwrites (does not add to) the
four counters and touches nothing else in the lookup. -/
theorem C6_theorem (st st2 : State) (w : Nat) (act act2 : ActivityId) (nid : NodeId)
    (info : ActInfo) (d e r f : U64)
    (h : alookup st.its act = none)
    (h2 : alookup st2.its act2 = some nid) (h3 : alookup st2.activities nid = some info) :
    progress st w act d e r f = none ∧
    stopActivity st w act = (st, [renderLine st w]) ∧
    (progress st2 w act2 d e r f).map (fun p => alookup p.1.activities nid)
      = some (some { info with done := d, expected := e, running := r, failed := f }) ∧
    (progress st2 w act2 d e r f).map (fun p => p.1.its) = some st2.its := by
  have hinfo : deref st2 nid = info := by simp [deref, h3]
  refine ⟨?_, ?_, ?_, ?_⟩
  · simp [progress, h]
  · simp [stopActivity, h]
  · simp only [progress, h2, Option.map_some']
    rw [alookup_aset_self, hinfo]
  · simp [progress, h2]

/-- Witness for C6 at concrete inputs: id 2 is unknown in the initial
state; id 1 is live in `c2Mid` as node 0 and its counters are overwritten
to (5, 7, 1, 2). -/
theorem C6_witness :
    alookup initState.its 2 = none ∧
    alookup c2Mid.its 1 = some 0 ∧
    alookup c2Mid.activities 0 = some ⟨"foo", "", ActivityType.actBuilds, 0, 0, 0, 0, []⟩ ∧
    (progress initState 80 2 5 7 1 2 = none ∧
      stopActivity initState 80 2 = (initState, [renderLine initState 80]) ∧
      (progress c2Mid 80 1 5 7 1 2).map (fun p => alookup p.1.activities 0)
        = some (some { (⟨"foo", "", ActivityType.actBuilds, 0, 0, 0, 0, []⟩ : ActInfo) with
            done := 5, expected := 7, running := 1, failed := 2 }) ∧
      (progress c2Mid 80 1 5 7 1 2).map (fun p => p.1.its) = some c2Mid.its) :=
  ⟨by decide, by decide, by decide,
    C6_theorem initState c2Mid 80 2 1 0 ⟨"foo", "", ActivityType.actBuilds, 0, 0, 0, 0, []⟩
      5 7 1 2 (by decide) (by decide) (by decide)⟩

/-- The state the build-log-line branch of `result` produces for a live
activity: the old node is erased, the record (with the trimmed text as
secondary label) is re-appended at the tail as a fresh node, and the
global lookup is repointed to it. -/
def buildLogMoved (st : State) (act : ActivityId) (nid : NodeId) (s2 : String) : State :=
  { st with
    nextNode := st.nextNode + 1
    activities := aerase st.activities nid ++ [(st.nextNode, { deref st nid with s2 := s2 })]
    its := aset st.its act st.nextNode }

/-- Claim C9: a build-log-line result whose text trims to empty changes
nothing at all — same state, no stderr write; non-empty trimmed text sets
the secondary label, moves the activity to the tail of the ordering list
(the new tail entry carries the trimmed text) and performs one render. -/
theorem C9_theorem (st : State) (w : Nat) (act : ActivityId) (nid : NodeId) (txt : String)
    (h : alookup st.its act = some nid) :
    result st w act ResultType.resBuildLogLine [FieldV.tString txt] =
      (if trimStr txt = "" then some (st, [])
        else some (buildLogMoved st act nid (trimStr txt),
          [renderLine (buildLogMoved st act nid (trimStr txt)) w])) ∧
    (buildLogMoved st act nid (trimStr txt)).activities.getLast?
      = some (st.nextNode, { deref st nid with s2 := trimStr txt }) ∧
    alookup (buildLogMoved st act nid (trimStr txt)).its act = some st.nextNode := by
  refine ⟨?_, ?_, ?_⟩
  · by_cases he : trimStr txt = ""
    · simp [result, getS, he]
    · simp [result, getS, he, h, buildLogMoved]
  · exact List.getLast?_concat _
  · exact alookup_aset_self st.its act st.nextNode

/-- Witness for C9 at concrete inputs: in `c2Mid` id 1 is live as node 0;
the theorem is instantiated at the text " gcc " (which trims to "gcc"). -/
theorem C9_witness :
    alookup c2Mid.its 1 = some 0 ∧
    (result c2Mid 80 1 ResultType.resBuildLogLine [FieldV.tString (" gcc ")] =
        (if trimStr (" gcc ") = "" then some (c2Mid, [])
          else some (buildLogMoved c2Mid 1 0 (trimStr (" gcc ")),
            [renderLine (buildLogMoved c2Mid 1 0 (trimStr (" gcc "))) 80])) ∧
      (buildLogMoved c2Mid 1 0 (trimStr (" gcc "))).activities.getLast?
        = some (c2Mid.nextNode, { deref c2Mid 0 with s2 := trimStr (" gcc ") }) ∧
      alookup (buildLogMoved c2Mid 1 0 (trimStr (" gcc "))).its 1 = some c2Mid.nextNode) :=
  ⟨by decide, C9_theorem c2Mid 80 1 0 (" gcc ") (by decide)⟩

end PB

namespace PB

/-! ### Claim C5 -/

theorem modifyABT_setActivities (st : State) (X : List (NodeId × ActInfo)) (t : ActivityType)
    (g : ActivitiesByType → ActivitiesByType) :
    modifyABT { st with activities := X } t g = { modifyABT st t g with activities := X } := rfl

/-- The state `setExpected` produces for a live activity `act` stored at
node `nid`: the activity's declared expectation for `t` is replaced by `v`
and the aggregate's `expected` is adjusted by the signed delta. -/
def expStateOf (st : State) (act : ActivityId) (t : ActivityType) (v : U64) (nid : NodeId) :
    State :=
  { st with
    activities := aset st.activities nid
      { deref st nid with expectedByType := aset (deref st nid).expectedByType t v }
    activitiesByType := aset st.activitiesByType t
      { getABT st t with
        expected :=
          (getABT st t).expected - ((alookup (deref st nid).expectedByType t).getD 0) + v } }

theorem setExpected_closed (st : State) (w : Nat) (act : ActivityId) (t : ActivityType)
    (v : U64) (nid : NodeId) (h : alookup st.its act = some nid) :
    setExpected st w act t v =
      some (expStateOf st act t v nid, [renderLine (expStateOf st act t v nid) w]) := by
  simp only [setExpected, h]
  rw [modifyABT_setActivities, modifyABT_modifyABT]
  rfl

theorem expStateOf_expStateOf (st : State) (act : ActivityId) (t : ActivityType)
    (v1 v2 : U64) (nid : NodeId) :
    expStateOf (expStateOf st act t v1 nid) act t v2 nid = expStateOf st act t v2 nid := by
  simp [expStateOf, deref, getABT, alookup_aset_self, aset_aset, add_sub_cancel_right]

/-- Claim C5: for a live activity, `setExpected(act, t, v1)` followed by
`setExpected(act, t, v2)` produces exactly the state a single
`setExpected(act, t, v2)` produces, and the activity's recorded
contribution to category `t` ends up exactly `v2` (idempotent signed-delta
accounting). -/
theorem C5_theorem (st : State) (w : Nat) (act : ActivityId) (t : ActivityType)
    (v1 v2 : U64) (nid : NodeId) (h : alookup st.its act = some nid) :
    ((setExpected st w act t v1).bind (fun p => setExpected p.1 w act t v2)).map Prod.fst
      = (setExpected st w act t v2).map Prod.fst ∧
    ((setExpected st w act t v1).bind (fun p => setExpected p.1 w act t v2)).map
        (fun p => (alookup (deref p.1 nid).expectedByType t).getD 0) = some v2 := by
  have hits : (expStateOf st act t v1 nid).its = st.its := rfl
  have h1 := setExpected_closed st w act t v1 nid h
  have h2 := setExpected_closed (expStateOf st act t v1 nid) w act t v2 nid
    (by rw [hits]; exact h)
  have h3 := setExpected_closed st w act t v2 nid h
  rw [h1, Option.some_bind, h2, expStateOf_expStateOf, h3]
  refine ⟨rfl, ?_⟩
  simp [expStateOf, deref, alookup_aset_self]

/-- Witness for C5 at concrete inputs: in `c2Mid` id 1 is live as node 0;
declaring download expectations 4 then 9 equals declaring 9 once, and the
recorded contribution is 9. -/
theorem C5_witness :
    alookup c2Mid.its 1 = some 0 ∧
    (((setExpected c2Mid 80 1 ActivityType.actDownload 4).bind
        (fun p => setExpected p.1 80 1 ActivityType.actDownload 9)).map Prod.fst
      = (setExpected c2Mid 80 1 ActivityType.actDownload 9).map Prod.fst ∧
     ((setExpected c2Mid 80 1 ActivityType.actDownload 4).bind
        (fun p => setExpected p.1 80 1 ActivityType.actDownload 9)).map
        (fun p => (alookup (deref p.1 0).expectedByType ActivityType.actDownload).getD 0)
      = some 9) :=
  ⟨by decide, C5_theorem c2Mid 80 1 ActivityType.actDownload 4 9 0 (by decide)⟩

end PB

namespace PB

/-! ### Claim C7 -/

/-- A state whose composed status line (30-character label plus control
characters, 34 characters in all) overflows a width-20 terminal. -/
def c7Long : State :=
  (startActivity initState 20 1 ActivityType.actUnknown ("aaaaaaaaaaaaaaaaaaaaaaaaaaaaaa")).1

/-- Claim C7, as stated over every terminal width, is false at width 0:
`std::string(line, 0, width - 1)` evaluates `width - 1` as `size_t`, so
`-1` wraps to `2 ^ 64 - 1` and the whole 4-character line `"\r\x1B[K"` is
written, exceeding the claimed `width - 1` bound. -/
theorem C7_counterexample : ¬ ((renderLine initState 0).length ≤ 0 - 1) := by
  decide

/-- Claim C7 (amended): for every state and every terminal width between 1
and 65535 (`ws_col` is a 16-bit field), the written line is at most
`width - 1` characters, counting raw characters including embedded
color-control sequences; in particular at width 20 an over-long composed
line is written truncated to exactly 19 characters.  At width 0 the
`size_t` wrap-around makes the source write the entire line instead. -/
theorem C7_theorem (st : State) (w : Nat) (h1 : 1 ≤ w) (h2 : w ≤ 65535) :
    (renderLine st w).length ≤ w - 1 ∧ (renderLine c7Long 20).length = 19 := by
  constructor
  · have hW : W64 = 18446744073709551616 := rfl
    have hmod : (w + (W64 - 1)) % W64 = w - 1 := by
      have hlt : w - 1 < W64 := by rw [hW]; omega
      have hre : w + (W64 - 1) = (w - 1) + W64 := by rw [hW] at *; omega
      rw [hre, Nat.add_mod_right, Nat.mod_eq_of_lt hlt]
    unfold renderLine strTrunc
    rw [hmod]
    have hlen : (String.mk ((lineOf st).data.take (w - 1))).length
        = ((lineOf st).data.take (w - 1)).length := rfl
    rw [hlen, List.length_take]
    exact min_le_left _ _
  · decide

/-- Witness for C7 at a concrete input: width 20 with the over-long line
of `c7Long`, truncated to exactly 19 characters. -/
theorem C7_witness :
    1 ≤ 20 ∧ 20 ≤ 65535 ∧
    ((renderLine c7Long 20).length ≤ 20 - 1 ∧ (renderLine c7Long 20).length = 19) :=
  ⟨by decide, by decide, C7_theorem c7Long 20 (by decide) (by decide)⟩

end PB

namespace PB

/-! ### Claim C8 -/

/-- Comma-join of a clause list (`", "` between consecutive clauses). -/
def commaJoin : List String → String
  | [] => ""
  | [c] => c
  | c :: cs => c ++ ", " ++ commaJoin cs

/-- Comma-join of the non-empty clauses of a list. -/
def joinNE (cs : List String) : String := commaJoin (cs.filter (fun s => !(s == "")))

/-- The combined copies clause: count of copied path-sets plus the
parenthesized MiB metric, with `"0 copied"` synthesized when the path-set
metric is empty but the byte metric is not. -/
def copiesClause (st : State) : String :=
  let s1 := renderActivity st ActivityType.actCopyPaths (" copied") fmtInt
  let s2 := renderActivity st ActivityType.actCopyPath (" MiB") fmtMiB
  if s1 = "" ∧ s2 = "" then ""
  else (if s1 = "" then "0 copied" else s1) ++ (if s2 = "" then "" else " (" ++ s2 ++ ")")

/-- The store-optimisation clause with the appended freed-space summary. -/
def optClause (st : State) : String :=
  let so := renderActivity st ActivityType.actOptimiseStore (" paths optimised") fmtInt
  if so = "" then ""
  else so ++ ", " ++ showMiB st.bytesLinked ++ " MiB / " ++ showD st.filesLinked ++ " inodes freed"

/-- The red corrupted-paths counter clause. -/
def corruptedClause (st : State) : String :=
  if st.corruptedPaths ≠ 0 then
    ANSI_RED ++ showD st.corruptedPaths ++ " corrupted" ++ ANSI_NORMAL
  else ""

/-- The red untrusted-paths counter clause. -/
def untrustedClause (st : State) : String :=
  if st.untrustedPaths ≠ 0 then
    ANSI_RED ++ showD st.untrustedPaths ++ " untrusted" ++ ANSI_NORMAL
  else ""

theorem strAppend_assoc (a b c : String) : (a ++ b) ++ c = a ++ (b ++ c) :=
  String.ext (by simp [strData_append])

theorem addClause_empty (res : String) : addClause res ("") = res := by simp [addClause]

theorem commaJoin_merge (a b : String) (F : List String) :
    commaJoin ((a ++ ", " ++ b) :: F) = commaJoin (a :: b :: F) := by
  cases F with
  | nil => rfl
  | cons x xs =>
      show (a ++ ", " ++ b) ++ ", " ++ commaJoin (x :: xs)
        = a ++ ", " ++ (b ++ ", " ++ commaJoin (x :: xs))
      simp [strAppend_assoc]

theorem foldl_addClause (cs : List String) (res : String) :
    cs.foldl addClause res = joinNE (res :: cs) := by
  induction cs generalizing res with
  | nil =>
      by_cases h : res = ""
      · simp [joinNE, commaJoin, h]
      · have hb : (res == "") = false := beq_eq_false_iff_ne.mpr h
        simp [joinNE, commaJoin, hb]
  | cons c cs ih =>
      rw [List.foldl_cons, ih]
      by_cases hr : res = ""
      · by_cases hc : c = ""
        · subst hr; subst hc
          simp [addClause, joinNE]
        · subst hr
          have hcb : (c == "") = false := beq_eq_false_iff_ne.mpr hc
          simp [addClause, hc, joinNE, hcb]
      · have hrb : (res == "") = false := beq_eq_false_iff_ne.mpr hr
        by_cases hc : c = ""
        · subst hc
          simp [addClause, joinNE, hrb]
        · have hcb : (c == "") = false := beq_eq_false_iff_ne.mpr hc
          have hcomb : ¬ ((res ++ ", ") ++ c = "") := append_ne_empty_right _ _ hc
          have hcombb : (((res ++ ", ") ++ c) == "") = false := beq_eq_false_iff_ne.mpr hcomb
          simp only [addClause, if_neg hc, if_neg hr, joinNE, List.filter_cons, hcb, hrb,
            hcombb, Bool.not_false, if_pos, Bool.not_true, Bool.false_eq_true, if_false,
            if_true]
          exact commaJoin_merge res c (cs.filter (fun s => !(s == "")))

theorem copies_step (st : State) (res : String) :
    (if renderActivity st ActivityType.actCopyPaths (" copied") fmtInt = "" ∧
        renderActivity st ActivityType.actCopyPath (" MiB") fmtMiB = "" then res
      else
        (if res = "" then "" else res ++ ", ") ++
          ((if renderActivity st ActivityType.actCopyPaths (" copied") fmtInt = "" then "0 copied"
              else renderActivity st ActivityType.actCopyPaths (" copied") fmtInt) ++
            (if renderActivity st ActivityType.actCopyPath (" MiB") fmtMiB = "" then ""
              else " (" ++ renderActivity st ActivityType.actCopyPath (" MiB") fmtMiB ++ ")"))) =
    addClause res (copiesClause st) := by
  unfold copiesClause
  by_cases h : renderActivity st ActivityType.actCopyPaths (" copied") fmtInt = "" ∧
      renderActivity st ActivityType.actCopyPath (" MiB") fmtMiB = ""
  · simp [h, addClause]
  · rw [if_neg h]
    simp only [if_neg h]
    rw [addClause]
    have hne : ¬ ((if renderActivity st ActivityType.actCopyPaths (" copied") fmtInt = ""
          then "0 copied" else renderActivity st ActivityType.actCopyPaths (" copied") fmtInt) ++
        (if renderActivity st ActivityType.actCopyPath (" MiB") fmtMiB = "" then ""
          else " (" ++ renderActivity st ActivityType.actCopyPath (" MiB") fmtMiB ++ ")") = "") := by
      by_cases h1 : renderActivity st ActivityType.actCopyPaths (" copied") fmtInt = ""
      · rw [if_pos h1]
        exact append_ne_empty_left _ _ (by decide)
      · rw [if_neg h1]
        exact append_ne_empty_left _ _ h1
    rw [if_neg hne]

theorem opt_step (st : State) (res : String) :
    (if renderActivity st ActivityType.actOptimiseStore (" paths optimised") fmtInt = "" then res
      else
        addClause res
          (renderActivity st ActivityType.actOptimiseStore (" paths optimised") fmtInt ++ ", " ++
            showMiB st.bytesLinked ++ " MiB / " ++ showD st.filesLinked ++ " inodes freed")) =
    addClause res (optClause st) := by
  unfold optClause
  by_cases h : renderActivity st ActivityType.actOptimiseStore (" paths optimised") fmtInt = ""
  · simp [h, addClause]
  · simp only [if_neg h]

theorem flag_step (res X : String) (b : Prop) [Decidable b] :
    (if b then addClause res X else res) = addClause res (if b then X else "") := by
  by_cases h : b
  · simp [h]
  · simp [h, addClause]

/-- Claim C8: the bracketed status string equals the `", "`-join of the
non-empty clauses in the fixed order builds, copies, downloads, store
optimisation, path verification, corrupted, untrusted; the combined copies
clause synthesizes `"0 copied"` as its left half when the path-set metric
is empty but the raw-byte metric is not. -/
theorem C8_theorem (st : State) :
    getStatus st = joinNE
      [renderActivity st ActivityType.actBuilds (" built") fmtInt,
        copiesClause st,
        renderActivity st ActivityType.actDownload (" MiB DL") fmtMiB,
        optClause st,
        renderActivity st ActivityType.actVerifyPaths (" paths verified") fmtInt,
        corruptedClause st,
        untrustedClause st] ∧
    copiesClause st =
      (if renderActivity st ActivityType.actCopyPaths (" copied") fmtInt = "" ∧
          renderActivity st ActivityType.actCopyPath (" MiB") fmtMiB = "" then ""
        else
          (if renderActivity st ActivityType.actCopyPaths (" copied") fmtInt = "" then "0 copied"
            else renderActivity st ActivityType.actCopyPaths (" copied") fmtInt) ++
          (if renderActivity st ActivityType.actCopyPath (" MiB") fmtMiB = "" then ""
            else " (" ++ renderActivity st ActivityType.actCopyPath (" MiB") fmtMiB ++ ")")) := by
  refine ⟨?_, rfl⟩
  have hfold := foldl_addClause
    [renderActivity st ActivityType.actBuilds (" built") fmtInt,
      copiesClause st,
      renderActivity st ActivityType.actDownload (" MiB DL") fmtMiB,
      optClause st,
      renderActivity st ActivityType.actVerifyPaths (" paths verified") fmtInt,
      corruptedClause st,
      untrustedClause st] ""
  rw [show joinNE
      (("" : String) :: [renderActivity st ActivityType.actBuilds (" built") fmtInt,
        copiesClause st,
        renderActivity st ActivityType.actDownload (" MiB DL") fmtMiB,
        optClause st,
        renderActivity st ActivityType.actVerifyPaths (" paths verified") fmtInt,
        corruptedClause st,
        untrustedClause st]) = joinNE
      [renderActivity st ActivityType.actBuilds (" built") fmtInt,
        copiesClause st,
        renderActivity st ActivityType.actDownload (" MiB DL") fmtMiB,
        optClause st,
        renderActivity st ActivityType.actVerifyPaths (" paths verified") fmtInt,
        corruptedClause st,
        untrustedClause st] from by simp [joinNE]] at hfold
  rw [← hfold]
  simp only [List.foldl_cons, List.foldl_nil]
  simp only [getStatus]
  rw [copies_step, opt_step, flag_step, flag_step]
  exact rfl

end PB

namespace PB

/-! ### Well-formed states and claim C4 -/

/-- The consistency invariant the source maintains on the bug-free paths:
node ids and lookup keys are unique, iterator values are unique and live,
every per-category lookup is exactly the restriction of the global lookup
to the activities of that category, the category entry of every live
activity exists, and per-activity expectation maps have unique keys. -/
def WF (st : State) : Prop :=
  (st.activities.map Prod.fst).Nodup ∧
  (st.its.map Prod.fst).Nodup ∧
  (st.its.map Prod.snd).Nodup ∧
  (∀ q ∈ st.its, (alookup st.activities q.2).isSome = true) ∧
  (∀ p ∈ st.activitiesByType,
    p.2.its = st.its.filter (fun q => decide ((deref st q.2).type = p.1))) ∧
  (∀ q ∈ st.its, (alookup st.activitiesByType (deref st q.2).type).isSome = true) ∧
  (∀ p ∈ st.activities, (p.2.expectedByType.map Prod.fst).Nodup)

instance (st : State) : Decidable (WF st) := by
  unfold WF
  exact inferInstance

/-- The visible (rendered) done total of a category. -/
def visibleDone (st : State) (t : ActivityType) : U64 := (renderCounts st t).1

/-- The visible (rendered) failed total of a category. -/
def visibleFailed (st : State) (t : ActivityType) : U64 := (renderCounts st t).2.2.2

theorem visibleDone_eq (st : State) (t : ActivityType) :
    visibleDone st t = (getABT st t).done + liveSum st t ActInfo.done := by
  rw [visibleDone, renderCounts_eq]

theorem visibleFailed_eq (st : State) (t : ActivityType) :
    visibleFailed st t = (getABT st t).failed + liveSum st t ActInfo.failed := by
  rw [visibleFailed, renderCounts_eq]

/-- The state `stopActivity` produces for a live activity `act` stored at
node `nid` (the successful branch of the source, step by step). -/
def stopState (st : State) (act : ActivityId) (nid : NodeId) : State :=
  let info := deref st nid
  let st1 := modifyABT st info.type
    (fun a => { a with done := a.done + info.done, failed := a.failed + info.failed })
  let st2 := info.expectedByType.foldl
    (fun s j => modifyABT s j.1 (fun a => { a with expected := a.expected - j.2 })) st1
  let st3 := modifyABT st2 info.type (fun a => { a with its := aerase a.its act })
  { st3 with activities := aerase st3.activities nid, its := aerase st3.its act }

theorem stopActivity_fst (st : State) (w : Nat) (act : ActivityId) (nid : NodeId)
    (h : alookup st.its act = some nid) :
    (stopActivity st w act).1 = stopState st act nid := by
  simp only [stopActivity, h]
  rfl

theorem subFold_activities (l : List (ActivityType × U64)) (st : State) :
    (l.foldl (fun s j => modifyABT s j.1 (fun a => { a with expected := a.expected - j.2 }))
        st).activities = st.activities := by
  induction l generalizing st with
  | nil => rfl
  | cons p l ih => rw [List.foldl_cons, ih]; rfl

theorem subFold_its (l : List (ActivityType × U64)) (st : State) :
    (l.foldl (fun s j => modifyABT s j.1 (fun a => { a with expected := a.expected - j.2 }))
        st).its = st.its := by
  induction l generalizing st with
  | nil => rfl
  | cons p l ih => rw [List.foldl_cons, ih]; rfl

theorem getABT_subFold (l : List (ActivityType × U64)) (st : State) (t : ActivityType)
    (hnd : (l.map Prod.fst).Nodup) :
    getABT (l.foldl (fun s j => modifyABT s j.1 (fun a => { a with expected := a.expected - j.2 }))
        st) t
      = { getABT st t with expected := (getABT st t).expected - ((alookup l t).getD 0) } := by
  induction l generalizing st with
  | nil => simp [alookup]
  | cons p l ih =>
      obtain ⟨t1, v⟩ := p
      simp only [List.map_cons, List.nodup_cons] at hnd
      rw [List.foldl_cons, ih _ hnd.2]
      by_cases ht : t1 = t
      · subst ht
        rw [getABT_modifyABT_self]
        have hl : alookup l t1 = none := alookup_eq_none_of_not_mem_keys l t1 hnd.1
        simp [alookup, hl]
      · have ht' : t ≠ t1 := fun hh => ht hh.symm
        rw [getABT_modifyABT_ne _ _ _ _ ht']
        simp [alookup, ht]

theorem getABT_setListFields (st : State) (A : List (NodeId × ActInfo))
    (I : List (ActivityId × NodeId)) (t : ActivityType) :
    getABT { st with activities := A, its := I } t = getABT st t := rfl

theorem stopState_activities (st : State) (act : ActivityId) (nid : NodeId) :
    (stopState st act nid).activities = aerase st.activities nid := by
  simp only [stopState, modifyABT_activities, subFold_activities]

theorem stopState_its (st : State) (act : ActivityId) (nid : NodeId) :
    (stopState st act nid).its = aerase st.its act := by
  simp only [stopState, modifyABT_its, subFold_its]

theorem stopState_getABT (st : State) (act : ActivityId) (nid : NodeId) (t : ActivityType)
    (hnd : ((deref st nid).expectedByType.map Prod.fst).Nodup) :
    getABT (stopState st act nid) t =
      (if t = (deref st nid).type then
        { getABT st t with
          its := aerase (getABT st t).its act
          done := (getABT st t).done + (deref st nid).done
          expected := (getABT st t).expected - ((alookup (deref st nid).expectedByType t).getD 0)
          failed := (getABT st t).failed + (deref st nid).failed }
      else
        { getABT st t with
          expected :=
            (getABT st t).expected - ((alookup (deref st nid).expectedByType t).getD 0) }) := by
  simp only [stopState]
  rw [getABT_setListFields]
  by_cases ht : t = (deref st nid).type
  · rw [if_pos ht]
    subst ht
    rw [getABT_modifyABT_self, getABT_subFold _ _ _ hnd, getABT_modifyABT_self]
  · rw [if_neg ht]
    rw [getABT_modifyABT_ne _ _ _ _ ht, getABT_subFold _ _ _ hnd,
      getABT_modifyABT_ne _ _ _ _ ht]

theorem mapCongrMem {α β : Type} (l : List α) (f g : α → β) (h : ∀ x ∈ l, f x = g x) :
    l.map f = l.map g := by
  induction l with
  | nil => rfl
  | cons x l ih =>
      simp only [List.map_cons]
      rw [h x (List.mem_cons_self _ _), ih (fun y hy => h y (List.mem_cons_of_mem _ hy))]

theorem map_sum_erase_key (l : List (ActivityId × NodeId)) (act : ActivityId) (nid : NodeId)
    (g : ActivityId × NodeId → U64) (h : alookup l act = some nid) :
    (l.map g).sum = g (act, nid) + ((aerase l act).map g).sum := by
  have hp := (perm_cons_aerase l act nid h).map g
  rw [hp.sum_eq]
  simp

end PB

namespace PB

theorem alookup_eq_some_of_mem_of_nodup {α β : Type} [DecidableEq α] (l : List (α × β))
    (k : α) (v : β) (hnd : (l.map Prod.fst).Nodup) (h : (k, v) ∈ l) : alookup l k = some v := by
  induction l with
  | nil => simp at h
  | cons p l ih =>
      obtain ⟨a, b⟩ := p
      simp only [List.map_cons, List.nodup_cons] at hnd
      rcases List.mem_cons.mp h with h1 | h1
      · obtain ⟨rfl, rfl⟩ := Prod.mk.inj h1.symm
        simp [alookup]
      · have ha : ¬ a = k := by
          intro hk
          subst hk
          exact hnd.1 (List.mem_map_of_mem Prod.fst h1)
        simp [alookup, ha, ih hnd.2 h1]

theorem liveSum_stopState_self (st : State) (act : ActivityId) (nid : NodeId)
    (f : ActInfo → U64) (hEbtNd : ((deref st nid).expectedByType.map Prod.fst).Nodup)
    (hlk : alookup (getABT st (deref st nid).type).its act = some nid)
    (hq0 : ∀ q ∈ aerase (getABT st (deref st nid).type).its act, q.2 ≠ nid) :
    liveSum st (deref st nid).type f
      = f (deref st nid) + liveSum (stopState st act nid) (deref st nid).type f := by
  unfold liveSum
  rw [stopState_getABT st act nid _ hEbtNd, if_pos rfl]
  dsimp only
  rw [map_sum_erase_key (getABT st (deref st nid).type).its act nid _ hlk]
  congr 1
  apply congrArg List.sum
  apply mapCongrMem
  intro q hq
  have hne := hq0 q hq
  have hd : deref (stopState st act nid) q.2 = deref st q.2 := by
    rw [deref, deref, stopState_activities, alookup_aerase_ne _ _ _ hne]
  rw [hd]

theorem liveSum_stopState_other (st : State) (act : ActivityId) (nid : NodeId)
    (t : ActivityType) (f : ActInfo → U64)
    (hEbtNd : ((deref st nid).expectedByType.map Prod.fst).Nodup)
    (ht : t ≠ (deref st nid).type)
    (hqt : ∀ q ∈ (getABT st t).its, q.2 ≠ nid) :
    liveSum (stopState st act nid) t f = liveSum st t f := by
  unfold liveSum
  rw [stopState_getABT st act nid t hEbtNd, if_neg ht]
  dsimp only
  apply congrArg List.sum
  apply mapCongrMem
  intro q hq
  have hne := hqt q hq
  have hd : deref (stopState st act nid) q.2 = deref st q.2 := by
    rw [deref, deref, stopState_activities, alookup_aerase_ne _ _ _ hne]
  rw [hd]

/-- Claim C4: stopping a live activity folds its `done` and `failed` into
its category's aggregate baseline and subtracts each of its cross-category
expectation contributions from the corresponding aggregates' `expected`
before removal, so the visible done and failed totals of every category
immediately after the stop are not less than (in fact equal to) their
values immediately before it. -/
theorem C4_theorem (st : State) (w : Nat) (act : ActivityId) (nid : NodeId) (t : ActivityType)
    (hwf : WF st) (h : alookup st.its act = some nid) :
    (visibleDone st t).val ≤ (visibleDone (stopActivity st w act).1 t).val ∧
    (visibleFailed st t).val ≤ (visibleFailed (stopActivity st w act).1 t).val ∧
    (getABT (stopActivity st w act).1 t).expected
      = (getABT st t).expected - ((alookup (deref st nid).expectedByType t).getD 0) ∧
    (getABT (stopActivity st w act).1 (deref st nid).type).done
      = (getABT st (deref st nid).type).done + (deref st nid).done ∧
    (getABT (stopActivity st w act).1 (deref st nid).type).failed
      = (getABT st (deref st nid).type).failed + (deref st nid).failed := by
  obtain ⟨hndActs, hndIts, hndSnd, hLive, hFilter, hTySome, hEbt⟩ := hwf
  have hmemIts : (act, nid) ∈ st.its := alookup_mem _ _ _ h
  have hActsSome : (alookup st.activities nid).isSome = true := hLive _ hmemIts
  obtain ⟨info0, hActsEq⟩ := Option.isSome_iff_exists.mp hActsSome
  have hmemActs : (nid, deref st nid) ∈ st.activities := by
    rw [show deref st nid = info0 from by rw [deref, hActsEq, Option.getD_some]]
    exact alookup_mem _ _ _ hActsEq
  have hEbtNd : ((deref st nid).expectedByType.map Prod.fst).Nodup := hEbt _ hmemActs
  have hT0Some : (alookup st.activitiesByType (deref st nid).type).isSome = true :=
    hTySome _ hmemIts
  obtain ⟨abt0, habt0⟩ := Option.isSome_iff_exists.mp hT0Some
  have hfilter0 : (getABT st (deref st nid).type).its
      = st.its.filter (fun q => decide ((deref st q.2).type = (deref st nid).type)) := by
    rw [getABT, habt0, Option.getD_some]
    exact hFilter _ (alookup_mem _ _ _ habt0)
  have hsubl : (getABT st (deref st nid).type).its.Sublist st.its := by
    rw [hfilter0]; exact List.filter_sublist _
  have hndL0 : ((getABT st (deref st nid).type).its.map Prod.fst).Nodup :=
    List.Nodup.sublist (hsubl.map _) hndIts
  have hmemL0 : (act, nid) ∈ (getABT st (deref st nid).type).its := by
    rw [hfilter0]
    exact List.mem_filter.mpr ⟨hmemIts, by simp⟩
  have hlkL0 : alookup (getABT st (deref st nid).type).its act = some nid :=
    alookup_eq_some_of_mem_of_nodup _ _ _ hndL0 hmemL0
  have hq0 : ∀ q ∈ aerase (getABT st (deref st nid).type).its act, q.2 ≠ nid := by
    intro q hq heq
    obtain ⟨hq1, hq2⟩ := mem_aerase_of_keys_nodup _ act q hndL0 hq
    have hqIts : q ∈ st.its := hsubl.subset hq2
    have hqe : q = (act, nid) := List.inj_on_of_nodup_map hndSnd hqIts hmemIts heq
    exact hq1 (by rw [hqe])
  have hqt : t ≠ (deref st nid).type → ∀ q ∈ (getABT st t).its, q.2 ≠ nid := by
    intro hne q hq heq
    cases hl : alookup st.activitiesByType t with
    | none =>
        rw [getABT, hl] at hq
        simp [defaultABT] at hq
    | some abt =>
        rw [getABT, hl, Option.getD_some, hFilter _ (alookup_mem _ _ _ hl)] at hq
        have htype := (List.mem_filter.mp hq).2
        rw [heq] at htype
        simp only [decide_eq_true_eq] at htype
        exact hne htype.symm
  rw [stopActivity_fst st w act nid h]
  have hABT := stopState_getABT st act nid t hEbtNd
  have hABT0 := stopState_getABT st act nid (deref st nid).type hEbtNd
  rw [if_pos rfl] at hABT0
  refine ⟨?_, ?_, ?_, ?_, ?_⟩
  · by_cases ht : t = (deref st nid).type
    · subst ht
      have hls := liveSum_stopState_self st act nid ActInfo.done hEbtNd hlkL0 hq0
      apply Nat.le_of_eq
      apply congrArg ZMod.val
      rw [visibleDone_eq, visibleDone_eq, hls, hABT0]
      dsimp only
      ring
    · have hls := liveSum_stopState_other st act nid t ActInfo.done hEbtNd ht (hqt ht)
      apply Nat.le_of_eq
      apply congrArg ZMod.val
      rw [visibleDone_eq, visibleDone_eq, hls, hABT, if_neg ht]
  · by_cases ht : t = (deref st nid).type
    · subst ht
      have hls := liveSum_stopState_self st act nid ActInfo.failed hEbtNd hlkL0 hq0
      apply Nat.le_of_eq
      apply congrArg ZMod.val
      rw [visibleFailed_eq, visibleFailed_eq, hls, hABT0]
      dsimp only
      ring
    · have hls := liveSum_stopState_other st act nid t ActInfo.failed hEbtNd ht (hqt ht)
      apply Nat.le_of_eq
      apply congrArg ZMod.val
      rw [visibleFailed_eq, visibleFailed_eq, hls, hABT, if_neg ht]
  · by_cases ht : t = (deref st nid).type
    · subst ht
      rw [hABT0]
    · rw [hABT, if_neg ht]
  · rw [hABT0]
  · rw [hABT0]

end PB

namespace PB

/-- Stage 1 of the C4 witness run: a build activity (id 1). -/
def c4Stage1 : State := (startActivity initState 80 1 ActivityType.actBuilds ("b")).1

/-- Stage 2: the build reports done 2, expected 5, running 1. -/
def c4Stage2 : State :=
  match progress c4Stage1 80 1 2 5 1 0 with
  | some p => p.1
  | none => c4Stage1

/-- Stage 3: a download activity (id 2) starts. -/
def c4Stage3 : State := (startActivity c4Stage2 80 2 ActivityType.actDownload ("d")).1

/-- Final C4 witness state: the build activity additionally declares a
cross-category download expectation of 7. -/
def c4State : State :=
  match setExpected c4Stage3 80 1 ActivityType.actDownload 7 with
  | some p => p.1
  | none => c4Stage3

/-- Witness for C4 at a concrete input: the well-formed two-activity state
`c4State`, stopping the live build id 1 (node 0), observed at the download
category. -/
theorem C4_witness :
    WF c4State ∧ alookup c4State.its 1 = some 0 ∧
    ((visibleDone c4State ActivityType.actDownload).val
        ≤ (visibleDone (stopActivity c4State 80 1).1 ActivityType.actDownload).val ∧
      (visibleFailed c4State ActivityType.actDownload).val
        ≤ (visibleFailed (stopActivity c4State 80 1).1 ActivityType.actDownload).val ∧
      (getABT (stopActivity c4State 80 1).1 ActivityType.actDownload).expected
        = (getABT c4State ActivityType.actDownload).expected
            - ((alookup (deref c4State 0).expectedByType ActivityType.actDownload).getD 0) ∧
      (getABT (stopActivity c4State 80 1).1 (deref c4State 0).type).done
        = (getABT c4State (deref c4State 0).type).done + (deref c4State 0).done ∧
      (getABT (stopActivity c4State 80 1).1 (deref c4State 0).type).failed
        = (getABT c4State (deref c4State 0).type).failed + (deref c4State 0).failed) :=
  ⟨by decide, by decide,
    C4_theorem c4State 80 1 0 ActivityType.actDownload (by decide) (by decide)⟩

end PB
